import Mathlib

/-!
Shallow embedding of the HTTP/1.1 server in this repository
(`webserver.py`, `router.py`, and the newer package iteration
`src/webserver.py`), together with proofs about the embedded code.

Python `bytes` values are modelled as `List Nat` (byte values 0..255) and
Python `str` values as `List Nat` (Unicode code points).  Python functions
used by the server (`str.split`, `str.strip`, `str.upper`, `int`,
`bytes.find`, `dict`, UTF-8 codecs, `urllib.parse`) are modelled below;
the models restrict Python's full Unicode case mapping and digit set to
ASCII, which is the fragment the server's protocol strings live in.
-/

/-- Python `str` modelled as a list of Unicode code points (and Python
`bytes` as a list of byte values). -/
abbrev PyStr := List Nat

deriving instance DecidableEq for Except

/-- Code points of a Lean string literal, used to write the concrete
protocol strings appearing in the source. -/
def pyS (x : String) : List Nat :=
  x.toList.map Char.toNat

/-- Whitespace test of Python `str.strip` / `str.isspace` (code points). -/
def pyIsSpace (c : Nat) : Bool :=
  (9 ≤ c && c ≤ 13) || c == 32 || (28 ≤ c && c ≤ 31) || c == 133 || c == 160 ||
  c == 5760 || (8192 ≤ c && c ≤ 8202) || c == 8232 || c == 8233 || c == 8239 ||
  c == 8287 || c == 12288

/-- Python `str.strip()` with no argument: drop whitespace at both ends. -/
def pyStrip (st : PyStr) : PyStr :=
  ((st.dropWhile pyIsSpace).reverse.dropWhile pyIsSpace).reverse

/-- ASCII part of Python `str.upper` on one code point. -/
def pyUpperChar (c : Nat) : Nat :=
  if 97 ≤ c && c ≤ 122 then c - 32 else c

/-- Python `str.upper()` (restricted to its ASCII behaviour). -/
def pyUpper (st : PyStr) : PyStr :=
  st.map pyUpperChar

/-- Python `str.split("\r\n")`: split at every occurrence of the
two-character CRLF separator, scanning left to right, keeping empty
pieces. -/
def pySplitCRLF : List Nat → List (List Nat)
  | [] => [[]]
  | 13 :: 10 :: rest => [] :: pySplitCRLF rest
  | c :: rest =>
      match pySplitCRLF rest with
      | [] => [[c]]
      | h2 :: t => (c :: h2) :: t

/-- Python `str.split(sep)` for a one-character separator: split at every
occurrence, keeping empty pieces. -/
def pySplitChar (sep : Nat) : List Nat → List (List Nat)
  | [] => [[]]
  | c :: rest =>
      if c = sep then [] :: pySplitChar sep rest
      else
        match pySplitChar sep rest with
        | [] => [[c]]
        | h2 :: t => (c :: h2) :: t

/-- Python `str.split(sep, 1)` for a one-character separator: split at the
first occurrence only, giving a one- or two-element list. -/
def pySplitFirstChar (sep : Nat) : List Nat → List (List Nat)
  | [] => [[]]
  | c :: rest =>
      if c = sep then [[], rest]
      else
        match pySplitFirstChar sep rest with
        | [] => [[c]]
        | h2 :: t => (c :: h2) :: t

/-- Python `bytes.find(pat)` (with `none` for Python's `-1`): index of the
first occurrence of `pat` as a contiguous sub-sequence. -/
def bFind (pat : List Nat) : List Nat → Option Nat
  | [] => if pat = [] then some 0 else none
  | c :: rest =>
      if pat.isPrefixOf (c :: rest) then some 0
      else (bFind pat rest).map (· + 1)

/-- Lookup in a Python `dict` modelled as an insertion-ordered
association list. -/
def pyDictGet {α β : Type} [DecidableEq α] (d : List (α × β)) (k : α) : Option β :=
  match d with
  | [] => none
  | (k', v) :: rest => if k' = k then some v else pyDictGet rest k

/-- Python `d[k] = v` on a `dict` modelled as an insertion-ordered
association list: an existing key keeps its position and gets the new
value, a new key is appended at the end. -/
def pyDictSet {α β : Type} [DecidableEq α] (d : List (α × β)) (k : α) (v : β) :
    List (α × β) :=
  match d with
  | [] => [(k, v)]
  | (k', v') :: rest =>
      if k' = k then (k', v) :: rest else (k', v') :: pyDictSet rest k v

/-- ASCII decimal digit test. -/
def isAsciiDigit (c : Nat) : Bool :=
  48 ≤ c && c ≤ 57

/-- Digit-run part of Python `int()`: ASCII digits with single underscores
allowed between digits (Python's numeric-literal underscore rule). -/
def pyIntDigits (acc : Nat) : List Nat → Option Nat
  | [] => some acc
  | 95 :: rest =>
      match rest with
      | d :: rest2 =>
          if isAsciiDigit d then pyIntDigits (acc * 10 + (d - 48)) rest2 else none
      | [] => none
  | d :: rest =>
      if isAsciiDigit d then pyIntDigits (acc * 10 + (d - 48)) rest else none

/-- Python `int(s)` (restricted to ASCII digits): strips whitespace, allows
one leading sign, then a non-empty digit run; `none` models `ValueError`. -/
def pyInt (st : PyStr) : Option Int :=
  match pyStrip st with
  | [] => none
  | c :: rest =>
      if c = 43 then
        match rest with
        | d :: rest2 =>
            if isAsciiDigit d then (pyIntDigits (d - 48) rest2).map Int.ofNat
            else none
        | [] => none
      else if c = 45 then
        match rest with
        | d :: rest2 =>
            if isAsciiDigit d then (pyIntDigits (d - 48) rest2).map (fun n => -(Int.ofNat n))
            else none
        | [] => none
      else
        if isAsciiDigit c then (pyIntDigits (c - 48) rest).map Int.ofNat
        else none

/-- Strict UTF-8 decoder (bytes to code points); `none` models Python's
`UnicodeDecodeError` under the default `strict` error handler. -/
def utf8Decode : List Nat → Option (List Nat)
  | [] => some []
  | b :: rest =>
      if b < 128 then (utf8Decode rest).map (b :: ·)
      else if 194 ≤ b ∧ b ≤ 223 then
        match rest with
        | b2 :: rest2 =>
            if 128 ≤ b2 ∧ b2 ≤ 191 then
              (utf8Decode rest2).map (((b - 192) * 64 + (b2 - 128)) :: ·)
            else none
        | _ => none
      else if 224 ≤ b ∧ b ≤ 239 then
        match rest with
        | b2 :: b3 :: rest3 =>
            let lo2 := if b = 224 then 160 else 128
            let hi2 := if b = 237 then 159 else 191
            if (lo2 ≤ b2 ∧ b2 ≤ hi2) ∧ (128 ≤ b3 ∧ b3 ≤ 191) then
              (utf8Decode rest3).map
                (((b - 224) * 4096 + (b2 - 128) * 64 + (b3 - 128)) :: ·)
            else none
        | _ => none
      else if 240 ≤ b ∧ b ≤ 244 then
        match rest with
        | b2 :: b3 :: b4 :: rest4 =>
            let lo2 := if b = 240 then 144 else 128
            let hi2 := if b = 244 then 143 else 191
            if (lo2 ≤ b2 ∧ b2 ≤ hi2) ∧ (128 ≤ b3 ∧ b3 ≤ 191) ∧ (128 ≤ b4 ∧ b4 ≤ 191) then
              (utf8Decode rest4).map
                (((b - 240) * 262144 + (b2 - 128) * 4096 + (b3 - 128) * 64 + (b4 - 128)) :: ·)
            else none
        | _ => none
      else none

/-- UTF-8 encoding of one code point. -/
def utf8EncodeChar (c : Nat) : List Nat :=
  if c < 128 then [c]
  else if c < 2048 then [192 + c / 64, 128 + c % 64]
  else if c < 65536 then [224 + c / 4096, 128 + (c / 64) % 64, 128 + c % 64]
  else [240 + c / 262144, 128 + (c / 4096) % 64, 128 + (c / 64) % 64, 128 + c % 64]

/-- Python `str.encode("utf-8")`. -/
def utf8Encode (st : PyStr) : List Nat :=
  st.flatMap utf8EncodeChar

/-! ## `webserver.py` (root iteration): the request framer/parser -/

namespace Webserver

/-- The header/body separator `b"\r\n\r\n"`. -/
def CRLF2 : List Nat := [13, 10, 13, 10]

/-- Outcome of parsing the header section of `WebServer.parse_request_from_buffer`
(`webserver.py` lines 269-331): request-line components, the header dict,
and the value derived from `Content-Length`. -/
structure HeadParse where
  method : PyStr
  pathWithQuery : PyStr
  version : PyStr
  headers : List (PyStr × PyStr)
  contentLength : Nat
deriving DecidableEq

/-- The header-line loop of `parse_request_from_buffer` (lines 297-312):
stops at the first blank line, requires a colon in every line, splits at the
first colon and strips name and value; duplicate names overwrite
(`headers[header_name.strip()] = header_val.strip()`).  The error message
carries the outer `400 Bad Request: ` wrapper added at line 372. -/
def parseHeaderLines (headers : List (PyStr × PyStr)) :
    List PyStr → Except PyStr (List (PyStr × PyStr))
  | [] => .ok headers
  | line :: rest =>
      if pyStrip line = [] then .ok headers
      else if line.contains 58 then
        let parts := pySplitFirstChar 58 line
        parseHeaderLines
          (pyDictSet headers (pyStrip (parts.headD []))
            (pyStrip ((parts.drop 1).headD []))) rest
      else
        .error (pyS "400 Bad Request: 400 Bad Request: Malformed header line: '"
          ++ pyStrip line ++ pyS "'")

/-- Python `a or b` on two optional strings: the first operand wins when it
is truthy (present and non-empty), as in
`headers.get("Content-Length") or headers.get("content-length")`. -/
def pyOrStr (a b : Option PyStr) : Option PyStr :=
  match a with
  | some v => if v = [] then b else some v
  | none => b

/-- Content-Length handling of `parse_request_from_buffer` (lines 316-331):
the exact two spellings `Content-Length` and `content-length` are consulted;
a falsy (absent or empty) value leaves the length at 0; a non-numeric or
negative value raises, and the negative-value `ValueError` is itself caught
by `except ValueError`, so both cases yield the `Invalid Content-Length`
message (doubled `400 Bad Request: ` from the re-wrap at line 372). -/
def get_content_length (headers : List (PyStr × PyStr)) : Except PyStr Nat :=
  match pyOrStr (pyDictGet headers (pyS "Content-Length"))
      (pyDictGet headers (pyS "content-length")) with
  | none => .ok 0
  | some v =>
      if v = [] then .ok 0
      else
        match pyInt v with
        | none => .error (pyS "400 Bad Request: 400 Bad Request: Invalid Content-Length header.")
        | some n =>
            if n < 0 then
              .error (pyS "400 Bad Request: 400 Bad Request: Invalid Content-Length header.")
            else .ok n.toNat

/-- Parse of the header section bytes `buffer[: header_end_index + 4]`
(lines 269-331): UTF-8 decode, split on CRLF, check and split the request
line (`len(first_line_parts) < 3` is the only token-count check in this
iteration), upper-case the method, then headers and Content-Length.
Error strings carry the `400 Bad Request: ` wrapper of line 372; a
decode failure is re-raised at line 375 as a 500 message. -/
def parseHeaderSection (header_section_bytes : List Nat) : Except PyStr HeadParse :=
  match utf8Decode header_section_bytes with
  | none => .error (pyS "500 Internal Server Error during parsing: UnicodeDecodeError")
  | some header_string =>
      match pySplitCRLF header_string with
      | [] => .error (pyS "400 Bad Request: 400 Bad Request: Empty request line")
      | first :: rest =>
          if first = [] then
            .error (pyS "400 Bad Request: 400 Bad Request: Empty request line")
          else
            let first_line_parts := pySplitChar 32 (pyStrip first)
            if first_line_parts.length < 3 then
              .error (pyS "400 Bad Request: 400 Bad Request: Malformed request line")
            else
              match parseHeaderLines [] rest with
              | .error e => .error e
              | .ok headers =>
                  match get_content_length headers with
                  | .error e => .error e
                  | .ok cl =>
                      .ok ⟨pyUpper (first_line_parts.headD []),
                        (first_line_parts.drop 1).headD [],
                        (first_line_parts.drop 2).headD [],
                        headers, cl⟩

/-- `dict(...)` applied to the sequence of `param.split("=", 1)` results
(line 358): every element must be a two-element list, later keys overwrite
earlier ones.  A one-element list (a parameter with no `=`) raises
`ValueError`, re-wrapped at line 372; the dynamic Python message is
abbreviated to a fixed representative. -/
def pyDictFromPairs (acc : List (PyStr × PyStr)) :
    List (List PyStr) → Except PyStr (List (PyStr × PyStr))
  | [] => .ok acc
  | [k, v] :: rest => pyDictFromPairs (pyDictSet acc k v) rest
  | _ :: _ =>
      .error (pyS "400 Bad Request: dictionary update sequence element has wrong length")

/-- Query handling of `parse_request_from_buffer` (lines 354-358): only when
the target contains `?` is it split at the first `?` and the query parsed
with `dict(param.split("=", 1) for param in query_string.split("&"))`;
otherwise `params` stays `None`.  The tuple unpacking
`path, query_string = ...` always succeeds when `?` is present. -/
def root_path_params (path_with_query : PyStr) :
    Except PyStr (PyStr × Option (List (PyStr × PyStr))) :=
  if path_with_query.contains 63 then
    let parts := pySplitFirstChar 63 path_with_query
    let path := parts.headD []
    let query_string := (parts.drop 1).headD []
    match pyDictFromPairs [] ((pySplitChar 38 query_string).map (pySplitFirstChar 61)) with
    | .error e => .error e
    | .ok d => .ok (path, some d)
  else .ok (path_with_query, none)

/-- The dictionary returned by `parse_request_from_buffer` on success. -/
structure PyRequest where
  method : PyStr
  path : PyStr
  version : PyStr
  headers : List (PyStr × PyStr)
  body_bytes : List Nat
  decoded_body : Option PyStr
  params : Option (List (PyStr × PyStr))
deriving DecidableEq

/-- `WebServer.parse_request_from_buffer` (`webserver.py` lines 255-375).
Returns the Python pair `(parsed_components, bytes_consumed)` with `none`
for the "need more data" signal, or the `ValueError` message raised for a
malformed request.  The body slice, the consumed count and the
"need more data" length test follow lines 333-342; the body UTF-8 decode
attempt (lines 345-352) never raises; query parsing (lines 354-358) runs
after the length check and can raise. -/
def parse_request_from_buffer (buffer : List Nat) :
    Except PyStr (Option PyRequest × Nat) :=
  match bFind CRLF2 buffer with
  | none => .ok (none, 0)
  | some header_end_index =>
      match parseHeaderSection (buffer.take (header_end_index + 4)) with
      | .error e => .error e
      | .ok hp =>
          let body_start_offset := header_end_index + 4
          if buffer.length < body_start_offset + hp.contentLength then
            .ok (none, 0)
          else
            let body_bytes := (buffer.drop body_start_offset).take hp.contentLength
            let decoded_body := if body_bytes.isEmpty then none else utf8Decode body_bytes
            match root_path_params hp.pathWithQuery with
            | .error e => .error e
            | .ok (path, params) =>
                .ok (some ⟨hp.method, path, hp.version, hp.headers, body_bytes,
                  decoded_body, params⟩, body_start_offset + hp.contentLength)

end Webserver

/-! ## `src/webserver.py` (package iteration): URL parsing and the framer

The package iteration of the server (imported by the test suite as
`src.webserver`) parses the request target with `urllib.parse`; the
relevant `urllib` functions are modelled here. -/

namespace SrcWebserver

/-- Value of one hex digit, as used by percent-decoding. -/
def hexVal (c : Nat) : Option Nat :=
  if 48 ≤ c ∧ c ≤ 57 then some (c - 48)
  else if 97 ≤ c ∧ c ≤ 102 then some (c - 87)
  else if 65 ≤ c ∧ c ≤ 70 then some (c - 55)
  else none

/-- Total UTF-8 decoder with Python's `errors="replace"` handling: an
invalid byte decodes to U+FFFD and one byte is skipped. -/
def utf8DecodeReplace : List Nat → List Nat
  | [] => []
  | b :: rest =>
      if b < 128 then b :: utf8DecodeReplace rest
      else if 194 ≤ b ∧ b ≤ 223 then
        match rest with
        | b2 :: rest2 =>
            if 128 ≤ b2 ∧ b2 ≤ 191 then
              ((b - 192) * 64 + (b2 - 128)) :: utf8DecodeReplace rest2
            else 65533 :: utf8DecodeReplace (b2 :: rest2)
        | [] => [65533]
      else if 224 ≤ b ∧ b ≤ 239 then
        match rest with
        | b2 :: b3 :: rest3 =>
            let lo2 := if b = 224 then 160 else 128
            let hi2 := if b = 237 then 159 else 191
            if (lo2 ≤ b2 ∧ b2 ≤ hi2) ∧ (128 ≤ b3 ∧ b3 ≤ 191) then
              ((b - 224) * 4096 + (b2 - 128) * 64 + (b3 - 128)) :: utf8DecodeReplace rest3
            else 65533 :: utf8DecodeReplace (b2 :: b3 :: rest3)
        | _ => [65533]
      else if 240 ≤ b ∧ b ≤ 244 then
        match rest with
        | b2 :: b3 :: b4 :: rest4 =>
            let lo2 := if b = 240 then 144 else 128
            let hi2 := if b = 244 then 143 else 191
            if (lo2 ≤ b2 ∧ b2 ≤ hi2) ∧ (128 ≤ b3 ∧ b3 ≤ 191) ∧ (128 ≤ b4 ∧ b4 ≤ 191) then
              ((b - 240) * 262144 + (b2 - 128) * 4096 + (b3 - 128) * 64 + (b4 - 128))
                :: utf8DecodeReplace rest4
            else 65533 :: utf8DecodeReplace (b2 :: b3 :: b4 :: rest4)
        | _ => [65533]
      else 65533 :: utf8DecodeReplace rest

/-- First phase of `urllib.parse.unquote`: scan the string left to right,
turning each `%XX` hex escape into a byte (`Sum.inr`) and every other
character into a literal code point (`Sum.inl`). -/
def pctTokenize : List Nat → List (Sum Nat Nat)
  | [] => []
  | 37 :: a :: b :: rest =>
      match hexVal a, hexVal b with
      | some x, some y => .inr (x * 16 + y) :: pctTokenize rest
      | _, _ => .inl 37 :: pctTokenize (a :: b :: rest)
  | c :: rest => .inl c :: pctTokenize rest

/-- Second phase of `urllib.parse.unquote`: literals pass through; each
maximal run of escape bytes (accumulated in reverse in `run`) is decoded
as UTF-8 with `errors="replace"`, so multi-byte percent-encoded
characters decode as one code point. -/
def pctFlushAux (run : List Nat) : List (Sum Nat Nat) → List Nat
  | [] => if run = [] then [] else utf8DecodeReplace run.reverse
  | .inl c :: rest =>
      if run = [] then c :: pctFlushAux [] rest
      else utf8DecodeReplace run.reverse ++ (c :: pctFlushAux [] rest)
  | .inr b :: rest => pctFlushAux (b :: run) rest

/-- `urllib.parse.unquote(s, encoding="utf-8", errors="replace")`. -/
def pyUnquote (st : PyStr) : PyStr :=
  pctFlushAux [] (pctTokenize st)

/-- `+` to space replacement applied to query names and values before
percent-decoding (`urllib.parse.parse_qsl`). -/
def plusToSpace (st : PyStr) : PyStr :=
  st.map (fun c => if c = 43 then 32 else c)

/-- Decoding applied by `parse_qsl` to each query name and value:
`+` becomes a space, then percent-escapes are decoded. -/
def qsDecode (st : PyStr) : PyStr :=
  pyUnquote (plusToSpace st)

/-- `urllib.parse.parse_qsl(qs, keep_blank_values=True)` with the default
`&` separator: split on `&`, skip empty fields, split each field at its
first `=` (a field without `=` keeps its blank value because
`keep_blank_values=True`), and decode names and values. -/
def parse_qsl (qs : PyStr) : List (PyStr × PyStr) :=
  if qs = [] then []
  else
    (pySplitChar 38 qs).filterMap fun tok =>
      if tok = [] then none
      else
        match pySplitFirstChar 61 tok with
        | [n, v] => some (qsDecode n, qsDecode v)
        | _ => some (qsDecode tok, [])

/-- Append `v` to the list held at key `k` (Python
`parsed_result[name].append(value)` inside `parse_qs`), adding the key at
the end when it is new. -/
def pyDictAppend (d : List (PyStr × List PyStr)) (k : PyStr) (v : PyStr) :
    List (PyStr × List PyStr) :=
  match d with
  | [] => [(k, [v])]
  | (k', vs) :: rest =>
      if k' = k then (k', vs ++ [v]) :: rest else (k', vs) :: pyDictAppend rest k v

/-- `urllib.parse.parse_qs(qs, keep_blank_values=True)`: group the
`parse_qsl` pairs into an insertion-ordered dict of value lists. -/
def parse_qs (qs : PyStr) : List (PyStr × List PyStr) :=
  (parse_qsl qs).foldl (fun d p => pyDictAppend d p.1 p.2) []

/-- `urllib.parse.urlsplit` restricted to origin-form request targets
(no scheme or authority component): the fragment is cut at the first `#`,
then path and query split at the first `?`. -/
def urlsplitPathQuery (target : PyStr) : PyStr × PyStr :=
  let beforeFrag := (pySplitFirstChar 35 target).headD []
  match pySplitFirstChar 63 beforeFrag with
  | [p, q] => (p, q)
  | parts => (parts.headD [], [])

/-- A query-parameter value in the package iteration: `str` when the key
occurs once, `list[str]` when it repeats. -/
inductive QPVal where
  | scalar (v : PyStr)
  | list (vs : List PyStr)
deriving DecidableEq

/-- The per-key conversion in `parse_url_path_and_query` (lines 272-277):
`values[0]` when the list has exactly one element, the list itself
otherwise. -/
def qpConv : List PyStr → QPVal
  | [v] => QPVal.scalar v
  | vs => QPVal.list vs

/-- `WebServer.parse_url_path_and_query` (`src/webserver.py` lines
254-279): split the target, percent-decode the path, parse the query with
`parse_qs`, then replace each single-element value list by its element. -/
def parse_url_path_and_query (path_with_query_str : PyStr) :
    PyStr × List (PyStr × QPVal) :=
  let (rawPath, query) := urlsplitPathQuery path_with_query_str
  let query_params := (parse_qs query).map fun p => (p.1, qpConv p.2)
  (pyUnquote rawPath, query_params)

/-- `WebServer.SUPPORTED_HTTP_METHODS` (`src/webserver.py` lines 59-67). -/
def SUPPORTED_HTTP_METHODS : List PyStr :=
  [pyS "GET", pyS "POST", pyS "PUT", pyS "DELETE", pyS "HEAD",
   pyS "OPTIONS", pyS "PATCH"]

/-- Outcome of parsing the header section in the package iteration's
`parse_request_from_buffer` (`src/webserver.py` lines 145-214). -/
structure HeadParse where
  method : PyStr
  path : PyStr
  params : List (PyStr × QPVal)
  version : PyStr
  headers : List (PyStr × PyStr)
  contentLength : Nat
deriving DecidableEq

/-- Header-line loop of the package iteration (lines 186-197); identical to
the root iteration except that the raised message is wrapped only once by
the `except ValueError` handler at line 249. -/
def parseHeaderLines (headers : List (PyStr × PyStr)) :
    List PyStr → Except PyStr (List (PyStr × PyStr))
  | [] => .ok headers
  | line :: rest =>
      if pyStrip line = [] then .ok headers
      else if line.contains 58 then
        let parts := pySplitFirstChar 58 line
        parseHeaderLines
          (pyDictSet headers (pyStrip (parts.headD []))
            (pyStrip ((parts.drop 1).headD []))) rest
      else
        .error (pyS "400 Bad Request: Malformed header line: '"
          ++ pyStrip line ++ pyS "'")

/-- Content-Length handling of the package iteration (lines 201-214):
same two-spelling lookup and truthiness as the root iteration, message
wrapped once. -/
def get_content_length (headers : List (PyStr × PyStr)) : Except PyStr Nat :=
  match Webserver.pyOrStr (pyDictGet headers (pyS "Content-Length"))
      (pyDictGet headers (pyS "content-length")) with
  | none => .ok 0
  | some v =>
      if v = [] then .ok 0
      else
        match pyInt v with
        | none => .error (pyS "400 Bad Request: Invalid Content-Length header.")
        | some n =>
            if n < 0 then
              .error (pyS "400 Bad Request: Invalid Content-Length header.")
            else .ok n.toNat

/-- Parse of the header section bytes in the package iteration
(`src/webserver.py` lines 145-214): after the exact three-token request
line check (`len(first_line_parts) != 3`, line 163) the target is parsed,
then the method must be in `SUPPORTED_HTTP_METHODS`, the raw target must
start with `/`, and the version must be exactly `HTTP/1.1`. -/
def parseHeaderSection (header_section_bytes : List Nat) :
    Except PyStr HeadParse :=
  match utf8Decode header_section_bytes with
  | none => .error (pyS "500 Internal Server Error during parsing: UnicodeDecodeError")
  | some header_string =>
      match pySplitCRLF header_string with
      | [] => .error (pyS "400 Bad Request: Empty request line")
      | first :: rest =>
          if first = [] then .error (pyS "400 Bad Request: Empty request line")
          else
            let first_line_parts := pySplitChar 32 (pyStrip first)
            if first_line_parts.length ≠ 3 then
              .error (pyS "400 Bad Request: Malformed request line")
            else
              let method := pyUpper (first_line_parts.headD [])
              let path_with_query := (first_line_parts.drop 1).headD []
              let version := (first_line_parts.drop 2).headD []
              let (path, params) := parse_url_path_and_query path_with_query
              if ¬ SUPPORTED_HTTP_METHODS.contains method then
                .error (pyS "400 Bad Request: Unsupported HTTP method: '"
                  ++ method ++ pyS "'")
              else if ¬ (pyS "/").isPrefixOf path_with_query then
                .error (pyS "400 Bad Request: Malformed path: Path must start with '/'")
              else if version ≠ pyS "HTTP/1.1" then
                .error (pyS "400 Bad Request: Invalid HTTP version")
              else
                match parseHeaderLines [] rest with
                | .error e => .error e
                | .ok headers =>
                    match get_content_length headers with
                    | .error e => .error e
                    | .ok cl => .ok ⟨method, path, params, version, headers, cl⟩

/-- The dictionary returned by the package iteration's
`parse_request_from_buffer` on success. -/
structure PyRequest where
  method : PyStr
  path : PyStr
  version : PyStr
  headers : List (PyStr × PyStr)
  body : List Nat
  decoded_body : Option PyStr
  params : List (PyStr × QPVal)
deriving DecidableEq

/-- `WebServer.parse_request_from_buffer` (`src/webserver.py` lines
131-252): same framing skeleton as the root iteration, with the stricter
request-line validation and `urllib`-based target parsing above. -/
def parse_request_from_buffer (buffer : List Nat) :
    Except PyStr (Option PyRequest × Nat) :=
  match bFind Webserver.CRLF2 buffer with
  | none => .ok (none, 0)
  | some header_end_index =>
      match parseHeaderSection (buffer.take (header_end_index + 4)) with
      | .error e => .error e
      | .ok hp =>
          let body_start_offset := header_end_index + 4
          if buffer.length < body_start_offset + hp.contentLength then
            .ok (none, 0)
          else
            let body := (buffer.drop body_start_offset).take hp.contentLength
            let decoded_body := if body.isEmpty then none else utf8Decode body
            .ok (some ⟨hp.method, hp.path, hp.version, hp.headers, body,
              decoded_body, hp.params⟩, body_start_offset + hp.contentLength)

end SrcWebserver

/-! ## `router.py`: the route table -/

/-- `Router` (`router.py`): `self.routes` maps an upper-cased method to an
inner dict from path to the `(handler, handler_args)` tuple.  The handler
and argument values are opaque to the router, so they are type
parameters here. -/
structure Router (H A : Type) where
  routes : List (PyStr × List (PyStr × (H × A)))

/-- The router's initial state (`self.routes = {}`). -/
def Router.empty (H A : Type) : Router H A :=
  ⟨[]⟩

/-- The in-place update `self.routes[method][path] = ...` seen from the
outer dict: replace the inner dict stored at the key `m`. -/
def routesSetInner {H A : Type} (routes : List (PyStr × List (PyStr × (H × A))))
    (m : PyStr) (path : PyStr) (v : H × A) :
    List (PyStr × List (PyStr × (H × A))) :=
  match routes with
  | [] => []
  | (k, inner) :: rest =>
      if k = m then (k, pyDictSet inner path v) :: routesSetInner rest m path v
      else (k, inner) :: routesSetInner rest m path v

/-- `Router.add_route` (`router.py` lines 16-36): upper-case the method,
create its inner dict when absent, then
`self.routes[method][path] = (handler, handler_args)`.  (The Python
`handler_args if handler_args is not None else {}` default is applied by
the caller of this model.) -/
def Router.add_route {H A : Type} (r : Router H A) (method path : PyStr)
    (handler : H) (handler_args : A) : Router H A :=
  let m := pyUpper method
  let routes1 :=
    if (pyDictGet r.routes m).isSome then r.routes else pyDictSet r.routes m []
  ⟨routesSetInner routes1 m path (handler, handler_args)⟩

/-- `Router.resolve_route` (`router.py` lines 38-53): upper-case the
method, and return the entry only when both the method and the exact path
are present; otherwise `None`. -/
def Router.resolve_route {H A : Type} (r : Router H A) (method path : PyStr) :
    Option (H × A) :=
  let m := pyUpper method
  match pyDictGet r.routes m with
  | some inner => pyDictGet inner path
  | none => none

/-! ## Middleware composition and response serialization (`webserver.py`) -/

namespace Webserver

/-- The middleware chain built in `WebServer.handle_client`
(`webserver.py` lines 179-181 and `src/webserver.py` lines 389-391):
`wrapper_handler = final_handler` followed by
`for middleware in reversed(self.middleware_functions):
wrapper_handler = middleware(wrapper_handler)`. -/
def build_wrapper_handler {H : Type} (middleware_functions : List (H → H))
    (final_handler : H) : H :=
  middleware_functions.reverse.foldl (fun w m => m w) final_handler

/-- `WebServer.STATUS_LINES` (`webserver.py` lines 39-52). -/
def STATUS_LINES : List (Nat × PyStr) :=
  [(200, pyS "OK"), (201, pyS "Created"), (204, pyS "No Content"),
   (301, pyS "Moved Permanently"), (302, pyS "Found"),
   (400, pyS "Bad Request"), (403, pyS "Forbidden"), (404, pyS "Not Found"),
   (405, pyS "Method Not Allowed"), (500, pyS "Internal Server Error"),
   (501, pyS "Not Implemented")]

/-- Decimal rendering of a status code or length (Python `str` on an int,
with the codes and lengths at hand non-negative). -/
def natToDec (n : Nat) : PyStr :=
  (Nat.toDigits 10 n).map Char.toNat

/-- The reason phrase: `self.STATUS_LINES.get(status_code, "Unknown Status")`
(`webserver.py` line 387). -/
def status_message (status_code : Nat) : PyStr :=
  (pyDictGet STATUS_LINES status_code).getD (pyS "Unknown Status")

/-- The bytes built and written by `WebServer.send_response`
(`webserver.py` lines 377-414): the status line, then the
`Content-Type`, `Content-Length` and `Connection` headers in insertion
order (`"keep-alive" if status_code == 200 else "close"`), a blank line,
and the raw body, passed to one `sendall` call. -/
def send_response_bytes (status_code : Nat) (content_type : PyStr)
    (content : List Nat) : List Nat :=
  let response_line :=
    pyS "HTTP/1.1 " ++ natToDec status_code ++ [32] ++ status_message status_code
      ++ [13, 10]
  let headers : List (PyStr × PyStr) :=
    [(pyS "Content-Type", content_type),
     (pyS "Content-Length", natToDec content.length),
     (pyS "Connection", if status_code = 200 then pyS "keep-alive" else pyS "close")]
  let header_lines :=
    (headers.foldl (fun acc p => acc ++ p.1 ++ pyS ": " ++ p.2 ++ [13, 10]) [])
      ++ [13, 10]
  utf8Encode response_line ++ utf8Encode header_lines ++ content

end Webserver

/-! ## General lemmas about the Python models -/

/-- A take of a list is one of its prefixes. -/
theorem takeIsPre (n : Nat) (l : List Nat) : l.take n <+: l :=
  ⟨l.drop n, List.take_append_drop n l⟩

/-- `isPrefixOf` decides the prefix relation. -/
theorem isPrefixOf_true_iff {l₁ l₂ : List Nat} :
    l₁.isPrefixOf l₂ = true ↔ l₁ <+: l₂ :=
  List.isPrefixOf_iff_prefix

/-- Two lists with a common prefix agree on takes inside it. -/
theorem take_eq_of_isPre {P R : List Nat} (h : P <+: R) {n : Nat}
    (hn : n ≤ P.length) : P.take n = R.take n := by
  have hP := List.prefix_iff_eq_take.mp h
  calc P.take n = (R.take P.length).take n := by rw [← hP]
    _ = R.take (min n P.length) := List.take_take n P.length R
    _ = R.take n := by rw [Nat.min_eq_left hn]

/-- A short enough prefix of `a ++ b` is a prefix of `a`. -/
theorem isPre_left_of_append {p a b : List Nat} (h : p <+: a ++ b)
    (hl : p.length ≤ a.length) : p <+: a := by
  have hp := List.prefix_iff_eq_take.mp h
  rw [List.take_append_of_le_length hl] at hp
  rw [hp]
  exact takeIsPre _ _

/-- Drops inside a common prefix are again in the prefix relation. -/
theorem drop_isPre_of_isPre {P R : List Nat} (h : P <+: R) {n : Nat}
    (hn : n ≤ P.length) : P.drop n <+: R.drop n := by
  obtain ⟨t, rfl⟩ := h
  rw [List.drop_append_of_le_length hn]
  exact ⟨t, rfl⟩

/-- A found pattern occurs at the returned index and fits in the list. -/
theorem bFind_occurrence {pat l : List Nat} {i : Nat}
    (h : bFind pat l = some i) : pat <+: l.drop i ∧ i + pat.length ≤ l.length := by
  induction l generalizing i with
  | nil =>
      by_cases hp : pat = ([] : List Nat) <;> simp [bFind, hp] at h
      simp [hp, ← h]
  | cons c rest ih =>
      rw [bFind] at h
      by_cases hp : pat.isPrefixOf (c :: rest) = true
      · rw [if_pos hp] at h
        cases h
        exact ⟨isPrefixOf_true_iff.mp hp, by
          simpa using (isPrefixOf_true_iff.mp hp).length_le⟩
      · rw [if_neg hp] at h
        cases hrest : bFind pat rest with
        | none => rw [hrest] at h; cases h
        | some i' =>
            rw [hrest] at h
            cases h
            obtain ⟨h1, h2⟩ := ih hrest
            refine ⟨h1, ?_⟩
            simp only [List.length_cons]
            omega

/-- `bFind` returns the least index at which the pattern occurs. -/
theorem bFind_least {pat l : List Nat} {i : Nat} (h : bFind pat l = some i)
    {j : Nat} (hj : pat <+: l.drop j) : i ≤ j := by
  induction l generalizing i j with
  | nil =>
      by_cases hp : pat = ([] : List Nat) <;> simp [bFind, hp] at h
      omega
  | cons c rest ih =>
      rw [bFind] at h
      by_cases hp : pat.isPrefixOf (c :: rest) = true
      · rw [if_pos hp] at h
        cases h
        exact Nat.zero_le _
      · rw [if_neg hp] at h
        cases hrest : bFind pat rest with
        | none => rw [hrest] at h; cases h
        | some i' =>
            rw [hrest] at h
            cases h
            cases j with
            | zero =>
                rw [List.drop_zero] at hj
                exact absurd (isPrefixOf_true_iff.mpr hj) hp
            | succ j' =>
                rw [List.drop_succ_cons] at hj
                exact Nat.succ_le_succ (ih hrest hj)

/-- A find that fits inside the left part of an append is a find there. -/
theorem bFind_append_left {pat l₁ t : List Nat} {j : Nat}
    (h : bFind pat (l₁ ++ t) = some j) (hj : j + pat.length ≤ l₁.length) :
    bFind pat l₁ = some j := by
  induction l₁ generalizing j with
  | nil =>
      simp only [List.length_nil, Nat.le_zero] at hj
      have hpat : pat = ([] : List Nat) := List.eq_nil_of_length_eq_zero (by omega)
      have hj0 : j = 0 := by omega
      subst hpat hj0
      simp [bFind]
  | cons c r ih =>
      rw [List.cons_append, bFind] at h
      by_cases hp : pat.isPrefixOf (c :: (r ++ t)) = true
      · rw [if_pos hp] at h
        cases h
        have : pat <+: c :: r :=
          isPre_left_of_append (isPrefixOf_true_iff.mp hp) (by simpa using hj)
        rw [bFind, if_pos (isPrefixOf_true_iff.mpr this)]
      · rw [if_neg hp] at h
        cases hrest : bFind pat (r ++ t) with
        | none => rw [hrest] at h; cases h
        | some j' =>
            rw [hrest] at h
            cases h
            have hj' : bFind pat r = some j' := ih hrest (by
              simp only [List.length_cons] at hj
              omega)
            have hps : ¬ pat.isPrefixOf (c :: r) = true := by
              intro hc
              exact hp (isPrefixOf_true_iff.mpr
                ((isPrefixOf_true_iff.mp hc).trans ⟨t, List.cons_append c r t⟩))
            rw [bFind, if_neg hps, hj']
            rfl

/-- On a prefix of the full buffer, a successful `bFind` finds the same
first occurrence as on the full buffer. -/
theorem bFind_isPre_eq {pat P R : List Nat} {h h' : Nat}
    (hR : bFind pat R = some h) (hP : P <+: R)
    (hfind : bFind pat P = some h') : h' = h := by
  obtain ⟨hocc, hfit⟩ := bFind_occurrence hfind
  have hoccR : pat <+: R.drop h' :=
    hocc.trans (drop_isPre_of_isPre hP (by omega))
  have hle : h ≤ h' := bFind_least hR hoccR
  obtain ⟨t, rfl⟩ := hP
  have : bFind pat P = some h := bFind_append_left hR (by omega)
  rw [hfind] at this
  cases this
  rfl

namespace Webserver

/-- The separator has length 4. -/
theorem CRLF2_length : CRLF2.length = 4 := rfl

/-- A successful parse that consumed `n` bytes has
`n = header_end_index + 4 + contentLength ≤ buffer.length`, with the header
section parsing successfully (helper decomposition used by several
theorems below). -/
theorem parse_ok_decompose {buffer : List Nat} {req : PyRequest} {n : Nat}
    (hp : parse_request_from_buffer buffer = .ok (some req, n)) :
    ∃ h hd, bFind CRLF2 buffer = some h
      ∧ parseHeaderSection (buffer.take (h + 4)) = .ok hd
      ∧ n = h + 4 + hd.contentLength
      ∧ ¬ buffer.length < h + 4 + hd.contentLength
      ∧ req.body_bytes = (buffer.drop (h + 4)).take hd.contentLength := by
  unfold parse_request_from_buffer at hp
  cases hf : bFind CRLF2 buffer with
  | none => rw [hf] at hp; cases hp
  | some h =>
      rw [hf] at hp
      dsimp only at hp
      cases hhs : parseHeaderSection (buffer.take (h + 4)) with
      | error e => rw [hhs] at hp; cases hp
      | ok hd =>
          rw [hhs] at hp
          dsimp only at hp
          by_cases hlen : buffer.length < h + 4 + hd.contentLength
          · rw [if_pos hlen] at hp; cases hp
          · rw [if_neg hlen] at hp
            cases hpp : root_path_params hd.pathWithQuery with
            | error e => rw [hpp] at hp; cases hp
            | ok pr =>
                rw [hpp] at hp
                dsimp only at hp
                cases hp
                exact ⟨h, hd, rfl, hhs, rfl, hlen, rfl⟩

/-- Any strict prefix of a buffer that parses successfully consuming the
whole buffer yields the "need more data" signal `(None, 0)`. -/
theorem parse_strict_isPre_needmore {R : List Nat} {req : PyRequest}
    (hR : parse_request_from_buffer R = .ok (some req, R.length))
    {P : List Nat} (hP : P <+: R) (hlt : P.length < R.length) :
    parse_request_from_buffer P = .ok (none, 0) := by
  obtain ⟨h, hd, hf, hhs, hn, hlen, _⟩ := parse_ok_decompose hR
  unfold parse_request_from_buffer
  cases hfP : bFind CRLF2 P with
  | none => rfl
  | some h' =>
      have hh : h' = h := bFind_isPre_eq hf hP hfP
      subst hh
      have hfitP : h' + 4 ≤ P.length := by
        have := (bFind_occurrence hfP).2
        rw [CRLF2_length] at this
        exact this
      have htake : P.take (h' + 4) = R.take (h' + 4) := take_eq_of_isPre hP hfitP
      dsimp only
      rw [htake, hhs]
      dsimp only
      rw [if_pos (by omega)]

end Webserver

/-! ## Claim theorems -/

/-- C1: for a well-formed request byte string `R` (one the framer parses
successfully, consuming exactly the whole buffer) and any split of `R`
into successive chunks, the framer applied to each partial concatenation
returns the "need more data" signal `(None, 0)` as long as the buffer is
still shorter than the full request, and parsing the full concatenation
is identical to parsing the whole request supplied in one chunk. -/
theorem claim_chunk_boundary_invariance
    (R : List Nat) (req : Webserver.PyRequest)
    (hR : Webserver.parse_request_from_buffer R = .ok (some req, R.length))
    (chunks : List (List Nat)) (hc : chunks.flatten = R) :
    (∀ i, ((chunks.take i).flatten).length < R.length →
        Webserver.parse_request_from_buffer ((chunks.take i).flatten) = .ok (none, 0))
    ∧ Webserver.parse_request_from_buffer chunks.flatten
        = Webserver.parse_request_from_buffer R := by
  constructor
  · intro i hlt
    refine Webserver.parse_strict_isPre_needmore hR ?_ hlt
    refine ⟨(chunks.drop i).flatten, ?_⟩
    rw [← List.flatten_append, List.take_append_drop, hc]
  · rw [hc]

/-- Witness for C1: a concrete POST request with query and body, split
after ten bytes; the first chunk alone gives "need more data" and the
concatenation parses like the unsplit request. -/
theorem claim_chunk_boundary_invariance_witness :
    Webserver.parse_request_from_buffer
        (([pyS "POST /ab?k", pyS "=v HTTP/1.1\r\nContent-Length: 3\r\n\r\nxyz"].take 1).flatten)
      = .ok (none, 0)
    ∧ Webserver.parse_request_from_buffer
        ([pyS "POST /ab?k", pyS "=v HTTP/1.1\r\nContent-Length: 3\r\n\r\nxyz"].flatten)
      = Webserver.parse_request_from_buffer
          (pyS "POST /ab?k=v HTTP/1.1\r\nContent-Length: 3\r\n\r\nxyz") := by
  have h := claim_chunk_boundary_invariance
    (pyS "POST /ab?k=v HTTP/1.1\r\nContent-Length: 3\r\n\r\nxyz")
    ⟨pyS "POST", pyS "/ab", pyS "HTTP/1.1",
      [(pyS "Content-Length", pyS "3")], pyS "xyz", some (pyS "xyz"),
      some [(pyS "k", pyS "v")]⟩
    (by decide)
    [pyS "POST /ab?k", pyS "=v HTTP/1.1\r\nContent-Length: 3\r\n\r\nxyz"]
    (by decide)
  exact ⟨h.1 1 (by decide), h.2⟩

/-- C2: whenever the buffer holds a complete, well-formed header block but
fewer body bytes than the declared Content-Length, the framer returns the
"need more data" signal `(None, 0)`; in particular it does so on the
spec's scenario buffer with 10 of 20 declared body bytes present. -/
theorem claim_incomplete_body_needmore :
    (∀ (buffer : List Nat) (h : Nat) (hd : Webserver.HeadParse),
        bFind Webserver.CRLF2 buffer = some h →
        Webserver.parseHeaderSection (buffer.take (h + 4)) = .ok hd →
        buffer.length < h + 4 + hd.contentLength →
        Webserver.parse_request_from_buffer buffer = .ok (none, 0))
    ∧ Webserver.parse_request_from_buffer
        (pyS "POST /x HTTP/1.1\r\nContent-Length: 20\r\n\r\nshort_body")
      = .ok (none, 0) := by
  constructor
  · intro buffer h hd hf hhs hlen
    unfold Webserver.parse_request_from_buffer
    rw [hf]
    dsimp only
    rw [hhs]
    dsimp only
    rw [if_pos hlen]
  · decide

/-- Witness for C2: the general part applied to the scenario buffer. -/
theorem claim_incomplete_body_needmore_witness :
    Webserver.parse_request_from_buffer
        (pyS "POST /x HTTP/1.1\r\nContent-Length: 20\r\n\r\nshort_body")
      = .ok (none, 0) :=
  claim_incomplete_body_needmore.1
    (pyS "POST /x HTTP/1.1\r\nContent-Length: 20\r\n\r\nshort_body") 36
    ⟨pyS "POST", pyS "/x", pyS "HTTP/1.1", [(pyS "Content-Length", pyS "20")], 20⟩
    (by decide) (by decide) (by decide)

/-- C9: whenever the framer succeeds, the consumed count equals the index
of the first `\r\n\r\n` plus 4 plus the parsed Content-Length, never
exceeds the buffer length, the body is exactly the slice of that length
right after the header terminator, and taking/dropping the consumed count
splits the buffer without losing a byte (the `handle_client` slide). -/
theorem claim_consumed_count_invariant
    (buffer : List Nat) (req : Webserver.PyRequest) (n : Nat)
    (hp : Webserver.parse_request_from_buffer buffer = .ok (some req, n)) :
    ∃ h hd, bFind Webserver.CRLF2 buffer = some h
      ∧ Webserver.parseHeaderSection (buffer.take (h + 4)) = .ok hd
      ∧ n = h + 4 + hd.contentLength
      ∧ n ≤ buffer.length
      ∧ req.body_bytes = (buffer.drop (h + 4)).take hd.contentLength
      ∧ req.body_bytes.length = hd.contentLength
      ∧ buffer.take n ++ buffer.drop n = buffer := by
  obtain ⟨h, hd, hf, hhs, hn, hlen, hbody⟩ := Webserver.parse_ok_decompose hp
  have hcl : hd.contentLength ≤ buffer.length - (h + 4) := by omega
  refine ⟨h, hd, hf, hhs, hn, by omega, hbody, ?_, List.take_append_drop n buffer⟩
  rw [hbody, List.length_take, List.length_drop, Nat.min_eq_left hcl]

/-- Witness for C9 at a concrete POST request followed by pipelined
bytes: header terminator at 36, Content-Length 4, consumed 48. -/
theorem claim_consumed_count_invariant_witness :
    ∃ h hd, bFind Webserver.CRLF2
        (pyS "POST /submit HTTP/1.1\r\nContent-Length: 4\r\n\r\nabcdGET /nex")
        = some h
      ∧ Webserver.parseHeaderSection
          ((pyS "POST /submit HTTP/1.1\r\nContent-Length: 4\r\n\r\nabcdGET /nex").take (h + 4))
          = .ok hd
      ∧ 48 = h + 4 + hd.contentLength
      ∧ 48 ≤ (pyS "POST /submit HTTP/1.1\r\nContent-Length: 4\r\n\r\nabcdGET /nex").length
      ∧ (Webserver.PyRequest.mk (pyS "POST") (pyS "/submit") (pyS "HTTP/1.1")
            [(pyS "Content-Length", pyS "4")] (pyS "abcd") (some (pyS "abcd")) none).body_bytes
          = ((pyS "POST /submit HTTP/1.1\r\nContent-Length: 4\r\n\r\nabcdGET /nex").drop (h + 4)).take
              hd.contentLength
      ∧ (Webserver.PyRequest.mk (pyS "POST") (pyS "/submit") (pyS "HTTP/1.1")
            [(pyS "Content-Length", pyS "4")] (pyS "abcd") (some (pyS "abcd")) none).body_bytes.length
          = hd.contentLength
      ∧ (pyS "POST /submit HTTP/1.1\r\nContent-Length: 4\r\n\r\nabcdGET /nex").take 48
            ++ (pyS "POST /submit HTTP/1.1\r\nContent-Length: 4\r\n\r\nabcdGET /nex").drop 48
          = pyS "POST /submit HTTP/1.1\r\nContent-Length: 4\r\n\r\nabcdGET /nex" :=
  claim_consumed_count_invariant
    (pyS "POST /submit HTTP/1.1\r\nContent-Length: 4\r\n\r\nabcdGET /nex")
    ⟨pyS "POST", pyS "/submit", pyS "HTTP/1.1",
      [(pyS "Content-Length", pyS "4")], pyS "abcd", some (pyS "abcd"), none⟩
    48 (by decide)

/-- C10: a Content-Length header whose (stripped) value is empty is falsy
in `content_length_str = headers.get(...) or headers.get(...)` /
`if content_length_str:`, so it is treated exactly like an absent header:
length 0 and no framing error.  Concretely, a request whose
`Content-Length` value is only whitespace parses with an empty body. -/
theorem claim_empty_content_length_like_absent :
    (∀ headers : List (PyStr × PyStr),
        (∀ v, pyDictGet headers (pyS "Content-Length") = some v → v = []) →
        (∀ v, pyDictGet headers (pyS "content-length") = some v → v = []) →
        Webserver.get_content_length headers = .ok 0)
    ∧ Webserver.parse_request_from_buffer
        (pyS "POST /x HTTP/1.1\r\nContent-Length:   \r\n\r\nhello")
      = .ok (some ⟨pyS "POST", pyS "/x", pyS "HTTP/1.1",
          [(pyS "Content-Length", [])], [], none, none⟩, 40) := by
  constructor
  · intro headers h1 h2
    cases hA : pyDictGet headers (pyS "Content-Length") with
    | none =>
        cases hB : pyDictGet headers (pyS "content-length") with
        | none => simp [Webserver.get_content_length, Webserver.pyOrStr, hA, hB]
        | some v =>
            have hv := h2 v hB
            subst hv
            simp [Webserver.get_content_length, Webserver.pyOrStr, hA, hB]
    | some v =>
        have hv := h1 v hA
        subst hv
        cases hB : pyDictGet headers (pyS "content-length") with
        | none => simp [Webserver.get_content_length, Webserver.pyOrStr, hA, hB]
        | some w =>
            have hw := h2 w hB
            subst hw
            simp [Webserver.get_content_length, Webserver.pyOrStr, hA, hB]
  · decide

/-- Witness for C10: the general part applied to the header dict of the
concrete request. -/
theorem claim_empty_content_length_like_absent_witness :
    Webserver.get_content_length [(pyS "Content-Length", [])] = .ok 0 :=
  claim_empty_content_length_like_absent.1 [(pyS "Content-Length", [])]
    (by decide) (by decide)

/-- C8 evidence: the Content-Length lookup consults exactly the two
spellings `Content-Length` and `content-length`, so the capitalization
`CONTENT-LENGTH` is treated as an absent header: the declared 5-byte body
is not consumed and the returned body is empty, while the same request
with the lowercase spelling is honoured; absence still means length 0,
and negative or non-numeric values are framing errors. -/
theorem claim_content_length_case_bug_evidence :
    Webserver.parse_request_from_buffer
        (pyS "POST /x HTTP/1.1\r\nCONTENT-LENGTH: 5\r\n\r\nhello")
      = .ok (some ⟨pyS "POST", pyS "/x", pyS "HTTP/1.1",
          [(pyS "CONTENT-LENGTH", pyS "5")], [], none, none⟩, 39)
    ∧ Webserver.parse_request_from_buffer
        (pyS "POST /x HTTP/1.1\r\ncontent-length: 5\r\n\r\nhello")
      = .ok (some ⟨pyS "POST", pyS "/x", pyS "HTTP/1.1",
          [(pyS "content-length", pyS "5")], pyS "hello", some (pyS "hello"), none⟩, 44)
    ∧ Webserver.get_content_length [(pyS "CONTENT-LENGTH", pyS "5")] = .ok 0
    ∧ Webserver.get_content_length [] = .ok 0
    ∧ Webserver.get_content_length [(pyS "Content-Length", pyS "-5")]
      = .error (pyS "400 Bad Request: 400 Bad Request: Invalid Content-Length header.")
    ∧ Webserver.get_content_length [(pyS "Content-Length", pyS "abc")]
      = .error (pyS "400 Bad Request: 400 Bad Request: Invalid Content-Length header.") := by
  exact ⟨by decide, by decide, by decide, by decide, by decide, by decide⟩

/-- C3: folding the registered middleware list in reverse registration
order around the resolved handler makes the first-registered middleware
the outermost wrapper: for `middleware_functions = [A, B]` the effective
handler is exactly `A (B handler)`, so `A` observes the request before
`B` and the response after `B`. -/
theorem claim_middleware_composition_order (H : Type) (A B : H → H) (h : H) :
    Webserver.build_wrapper_handler [A, B] h = A (B h) :=
  rfl

/-! Association-list lemmas for the router. -/

/-- Lookup after `d[k] = v` at the same key yields `v`. -/
theorem pyDictGet_set_self {α β : Type} [DecidableEq α]
    (d : List (α × β)) (k : α) (v : β) :
    pyDictGet (pyDictSet d k v) k = some v := by
  induction d with
  | nil => simp [pyDictGet, pyDictSet]
  | cons p rest ih =>
      obtain ⟨k', v'⟩ := p
      by_cases hk : k' = k
      · subst hk
        simp [pyDictGet, pyDictSet]
      · simp [pyDictGet, pyDictSet, hk, ih]

/-- Lookup after `d[k] = v` at another key is unchanged. -/
theorem pyDictGet_set_other {α β : Type} [DecidableEq α]
    (d : List (α × β)) (k k' : α) (v : β) (hne : k' ≠ k) :
    pyDictGet (pyDictSet d k v) k' = pyDictGet d k' := by
  induction d with
  | nil => simp [pyDictGet, pyDictSet, Ne.symm hne]
  | cons p rest ih =>
      obtain ⟨k0, v0⟩ := p
      by_cases hk : k0 = k
      · subst hk
        simp [pyDictGet, pyDictSet, Ne.symm hne]
      · simp only [pyDictSet, if_neg hk, pyDictGet]
        by_cases hk' : k0 = k'
        · simp [hk']
        · simp [hk', ih]

/-- Updating the inner dict stored at `m` is visible to a lookup of `m`. -/
theorem pyDictGet_routesSetInner {H A : Type}
    (routes : List (PyStr × List (PyStr × (H × A)))) (m path : PyStr)
    (v : H × A) :
    pyDictGet (routesSetInner routes m path v) m
      = (pyDictGet routes m).map (fun inner => pyDictSet inner path v) := by
  induction routes with
  | nil => simp [routesSetInner, pyDictGet]
  | cons p rest ih =>
      obtain ⟨k0, inner0⟩ := p
      by_cases hk : k0 = m
      · subst hk
        simp [routesSetInner, pyDictGet]
      · simp only [routesSetInner, if_neg hk, pyDictGet]
        exact ih

/-- C4: route resolution matches the method case-insensitively (both sides
are upper-cased) and the path case-sensitively by exact equality;
registering a (method, path) pair overwrites whatever was stored before,
so the latest handler/args win; a lookup that matches nothing returns
`None` instead of raising. -/
theorem claim_router_resolution (H A : Type) (r : Router H A)
    (m m' p p' : PyStr) (h : H) (a : A) (hm : pyUpper m' = pyUpper m) :
    (Router.add_route r m p h a).resolve_route m' p = some (h, a)
    ∧ (p' ≠ p →
        (Router.add_route (Router.empty H A) m p h a).resolve_route m' p' = none)
    ∧ (Router.empty H A).resolve_route m' p' = none := by
  refine ⟨?_, ?_, by simp [Router.resolve_route, Router.empty, pyDictGet]⟩
  · unfold Router.resolve_route Router.add_route
    rw [hm]
    dsimp only
    have hsome : ∃ inner0,
        pyDictGet (if (pyDictGet r.routes (pyUpper m)).isSome then r.routes
          else pyDictSet r.routes (pyUpper m) []) (pyUpper m) = some inner0 := by
      cases hg : pyDictGet r.routes (pyUpper m) with
      | none => exact ⟨[], by simp [hg, pyDictGet_set_self]⟩
      | some inner0 => exact ⟨inner0, by simp [hg]⟩
    obtain ⟨inner0, hinner⟩ := hsome
    rw [pyDictGet_routesSetInner, hinner]
    simp [pyDictGet_set_self]
  · intro hne
    unfold Router.resolve_route Router.add_route
    rw [hm]
    simp [Router.empty, routesSetInner, pyDictGet, pyDictSet, Ne.symm hne]

/-- Witness for C4: `get` vs `GeT` resolve the same route, re-registration
of `GET /a` overwrites the first handler, and `/A` does not match `/a`. -/
theorem claim_router_resolution_witness :
    (Router.add_route ((Router.empty Nat Nat).add_route (pyS "GET") (pyS "/a") 1 1)
        (pyS "get") (pyS "/a") 2 5).resolve_route (pyS "GeT") (pyS "/a") = some (2, 5)
    ∧ ((pyS "/A") ≠ (pyS "/a") →
        (Router.add_route (Router.empty Nat Nat) (pyS "get") (pyS "/a") 2 5).resolve_route
          (pyS "GeT") (pyS "/A") = none)
    ∧ (Router.empty Nat Nat).resolve_route (pyS "GeT") (pyS "/A") = none :=
  claim_router_resolution Nat Nat
    ((Router.empty Nat Nat).add_route (pyS "GET") (pyS "/a") 1 1)
    (pyS "get") (pyS "GeT") (pyS "/a") (pyS "/A") 2 5 (by decide)

/-- UTF-8 encoding distributes over concatenation. -/
theorem utf8Encode_append (a b : PyStr) :
    utf8Encode (a ++ b) = utf8Encode a ++ utf8Encode b := by
  simp [utf8Encode]

set_option maxRecDepth 4096 in
/-- C7 counterexample: status 201 is success-class, yet the serializer
emits `Connection: close` (the code tests `status_code == 200`, not the
success class), so the emitted bytes never contain `keep-alive`. -/
theorem claim_response_serialization_counterexample :
    (pyS "Connection: close\r\n") <:+:
      Webserver.send_response_bytes 201 (pyS "text/plain") (pyS "Created")
    ∧ ¬ (pyS "keep-alive") <:+:
      Webserver.send_response_bytes 201 (pyS "text/plain") (pyS "Created") := by
  constructor <;> decide

/-- Encoding of a cons. -/
theorem utf8Encode_cons (c : Nat) (rest : PyStr) :
    utf8Encode (c :: rest) = utf8EncodeChar c ++ utf8Encode rest := by
  simp [utf8Encode]

/-- Encoding preserves contiguous containment. -/
theorem utf8Encode_infix {x y : PyStr} (h : x <:+: y) :
    utf8Encode x <:+: utf8Encode y := by
  obtain ⟨s, t, rfl⟩ := h
  exact ⟨utf8Encode s, utf8Encode t, by simp [utf8Encode_append]⟩

/-- The wire bytes of `send_response`, cut at the boundaries of the status
line, the three header lines, the blank line and the body. -/
theorem send_response_bytes_decomposed (status : Nat) (ct : PyStr)
    (body : List Nat) :
    Webserver.send_response_bytes status ct body
      = utf8Encode (pyS "HTTP/1.1 " ++ (Webserver.natToDec status ++ ([32]
          ++ (Webserver.status_message status ++ [13, 10]))))
        ++ (utf8Encode (pyS "Content-Type: " ++ (ct ++ [13, 10]))
        ++ (utf8Encode (pyS "Content-Length: "
              ++ (Webserver.natToDec body.length ++ [13, 10]))
        ++ (utf8Encode (pyS "Connection: "
              ++ ((if status = 200 then pyS "keep-alive" else pyS "close")
                  ++ [13, 10]))
        ++ ([13, 10] ++ body)))) := by
  have hCT : ∀ X : PyStr, pyS "Content-Type" ++ (pyS ": " ++ X)
      = pyS "Content-Type: " ++ X := by
    intro X
    rw [← List.append_assoc]
    congr 1
  have hCL : ∀ X : PyStr, pyS "Content-Length" ++ (pyS ": " ++ X)
      = pyS "Content-Length: " ++ X := by
    intro X
    rw [← List.append_assoc]
    congr 1
  have hCO : ∀ X : PyStr, pyS "Connection" ++ (pyS ": " ++ X)
      = pyS "Connection: " ++ X := by
    intro X
    rw [← List.append_assoc]
    congr 1
  unfold Webserver.send_response_bytes
  simp only [List.foldl_cons, List.foldl_nil]
  simp [utf8Encode_append, utf8Encode_cons, List.append_assoc, hCT, hCL, hCO,
    (show utf8EncodeChar 13 = [13] from rfl),
    (show utf8EncodeChar 10 = [10] from rfl),
    (show utf8EncodeChar 32 = [32] from rfl),
    (show utf8Encode [] = [] from rfl)]

/-- C7 (amended): the serialized response begins with
`HTTP/1.1 <code> <reason>\r\n`, contains `Content-Type`,
`Content-Length` (the exact byte length of the body) and `Connection`
header lines — `keep-alive` exactly when the status code is 200 and
`close` otherwise — then a blank line directly before the raw body bytes;
a status code outside the table still gets the fallback reason phrase
`Unknown Status` instead of failing. -/
theorem claim_response_serialization (status : Nat) (ct : PyStr)
    (body : List Nat) :
    (∃ t, Webserver.send_response_bytes status ct body
        = utf8Encode (pyS "HTTP/1.1 " ++ (Webserver.natToDec status ++ ([32]
            ++ (Webserver.status_message status ++ [13, 10])))) ++ t)
    ∧ (utf8Encode (pyS "Content-Type: " ++ (ct ++ [13, 10]))) <:+:
        Webserver.send_response_bytes status ct body
    ∧ (utf8Encode (pyS "Content-Length: "
        ++ (Webserver.natToDec body.length ++ [13, 10]))) <:+:
        Webserver.send_response_bytes status ct body
    ∧ (utf8Encode (pyS "Connection: "
        ++ ((if status = 200 then pyS "keep-alive" else pyS "close")
            ++ [13, 10]))) <:+:
        Webserver.send_response_bytes status ct body
    ∧ (∃ hdr, Webserver.send_response_bytes status ct body = hdr ++ body
        ∧ [13, 10, 13, 10] <:+ hdr)
    ∧ (pyDictGet Webserver.STATUS_LINES status = none →
        Webserver.status_message status = pyS "Unknown Status") := by
  have hd := send_response_bytes_decomposed status ct body
  set A := utf8Encode (pyS "HTTP/1.1 " ++ (Webserver.natToDec status ++ ([32]
      ++ (Webserver.status_message status ++ [13, 10])))) with hA
  set B1 := utf8Encode (pyS "Content-Type: " ++ (ct ++ [13, 10])) with hB1
  set B2 := utf8Encode (pyS "Content-Length: "
      ++ (Webserver.natToDec body.length ++ [13, 10])) with hB2
  set B3 := utf8Encode (pyS "Connection: "
      ++ ((if status = 200 then pyS "keep-alive" else pyS "close")
          ++ [13, 10])) with hB3
  refine ⟨⟨_, hd⟩, ⟨A, B2 ++ (B3 ++ ([13, 10] ++ body)), ?_⟩,
    ⟨A ++ B1, B3 ++ ([13, 10] ++ body), ?_⟩,
    ⟨A ++ (B1 ++ B2), [13, 10] ++ body, ?_⟩,
    ⟨A ++ (B1 ++ (B2 ++ (B3 ++ [13, 10]))), ?_, ?_⟩, ?_⟩
  · rw [hd]
    simp [List.append_assoc]
  · rw [hd]
    simp [List.append_assoc]
  · rw [hd]
    simp [List.append_assoc]
  · rw [hd]
    simp [List.append_assoc]
  · have henc : B3 ++ [13, 10]
        = utf8Encode (pyS "Connection: "
            ++ (if status = 200 then pyS "keep-alive" else pyS "close"))
          ++ [13, 10, 13, 10] := by
      rw [hB3]
      simp [utf8Encode_append, utf8Encode_cons,
        (show utf8EncodeChar 13 = [13] from rfl),
        (show utf8EncodeChar 10 = [10] from rfl),
        (show utf8Encode [] = [] from rfl)]
    refine ⟨A ++ (B1 ++ (B2 ++ utf8Encode (pyS "Connection: "
        ++ (if status = 200 then pyS "keep-alive" else pyS "close")))), ?_⟩
    rw [henc]
    simp [List.append_assoc]
  · intro hnone
    unfold Webserver.status_message
    rw [hnone]
    rfl

/-- Witness for C7: at the unknown status code 299 the fallback reason is
used and the Connection header renders as `close`. -/
theorem claim_response_serialization_witness :
    Webserver.status_message 299 = pyS "Unknown Status"
    ∧ (utf8Encode (pyS "Connection: "
        ++ ((if 299 = 200 then pyS "keep-alive" else pyS "close")
            ++ [13, 10]))) <:+:
        Webserver.send_response_bytes 299 (pyS "a/b") (pyS "xy") := by
  have h := claim_response_serialization 299 (pyS "a/b") (pyS "xy")
  exact ⟨h.2.2.2.2.2 (by decide), h.2.2.2.1⟩

/-! ## Query-parameter lemmas (package iteration) -/

namespace SrcWebserver

/-- The values carried by key `k` in a pair list, in arrival order. -/
def valuesOfKey (k : PyStr) (prs : List (PyStr × PyStr)) : List PyStr :=
  prs.filterMap fun p => if p.1 = k then some p.2 else none

/-- Appending one pair to the grouped dict extends exactly the list at its
key. -/
theorem pyDictAppend_getD (d : List (PyStr × List PyStr)) (k k' : PyStr)
    (v : PyStr) :
    (pyDictGet (pyDictAppend d k' v) k).getD []
      = if k = k' then (pyDictGet d k).getD [] ++ [v]
        else (pyDictGet d k).getD [] := by
  induction d with
  | nil =>
      by_cases hk : k = k'
      · subst hk
        simp [pyDictAppend, pyDictGet]
      · simp [pyDictAppend, pyDictGet, hk, Ne.symm hk]
  | cons p rest ih =>
      obtain ⟨k0, vs0⟩ := p
      by_cases h0 : k0 = k'
      · subst h0
        by_cases hk : k0 = k
        · subst hk
          simp [pyDictAppend, pyDictGet]
        · simp [pyDictAppend, pyDictGet, hk, Ne.symm hk]
      · by_cases hk : k0 = k
        · subst hk
          simp [pyDictAppend, pyDictGet, h0, Ne.symm h0]
        · simp [pyDictAppend, pyDictGet, h0, hk, ih]

/-- The `parse_qs` grouping fold, started from any dict, groups values per
key in arrival order. -/
theorem parse_qs_fold_getD (prs : List (PyStr × PyStr))
    (d : List (PyStr × List PyStr)) (k : PyStr) :
    (pyDictGet (prs.foldl (fun d p => pyDictAppend d p.1 p.2) d) k).getD []
      = (pyDictGet d k).getD [] ++ valuesOfKey k prs := by
  induction prs generalizing d with
  | nil => simp [valuesOfKey]
  | cons p rest ih =>
      obtain ⟨k0, v0⟩ := p
      rw [List.foldl_cons, ih, pyDictAppend_getD]
      by_cases hk : k = k0
      · subst hk
        simp [valuesOfKey, List.filterMap_cons]
      · simp [valuesOfKey, List.filterMap_cons, hk, Ne.symm hk]

/-- `parse_qs` holds, at each key, exactly the ordered list of that key's
decoded values. -/
theorem parse_qs_getD (qs : PyStr) (k : PyStr) :
    (pyDictGet (parse_qs qs) k).getD [] = valuesOfKey k (parse_qsl qs) := by
  rw [parse_qs, parse_qs_fold_getD]
  simp [pyDictGet]

/-- A non-empty `getD` means the key is present with that list. -/
theorem pyDictGet_of_getD_ne {β : Type} (d : List (PyStr × β)) (k : PyStr)
    (dflt : β) (h : (pyDictGet d k).getD dflt ≠ dflt) :
    pyDictGet d k = some ((pyDictGet d k).getD dflt) := by
  cases hg : pyDictGet d k with
  | none => rw [hg] at h; simp at h
  | some v => simp

/-- Lookup commutes with a value-only rewrite of an association list. -/
theorem pyDictGet_map_value {β γ : Type} (d : List (PyStr × β))
    (f : β → γ) (k : PyStr) :
    pyDictGet (d.map fun p => (p.1, f p.2)) k = (pyDictGet d k).map f := by
  induction d with
  | nil => simp [pyDictGet]
  | cons p rest ih =>
      obtain ⟨k0, v0⟩ := p
      by_cases hk : k0 = k
      · subst hk
        simp [pyDictGet]
      · simp [pyDictGet, hk, ih]

/-- A token without `=` is not split by `split("=", 1)`. -/
theorem pySplitFirstChar_eq_self {tok : PyStr} (h : tok.contains 61 = false) :
    pySplitFirstChar 61 tok = [tok] := by
  induction tok with
  | nil => rfl
  | cons c rest ih =>
      simp only [List.contains_cons, Bool.or_eq_false_iff] at h
      obtain ⟨hc, hrest⟩ := h
      have hc' : c ≠ 61 := by
        intro hcc
        subst hcc
        simp at hc
      rw [pySplitFirstChar, if_neg hc', ih hrest]

end SrcWebserver

/-- The query-parameter dict of `parse_url_path_and_query` is the
`qpConv` image of the `parse_qs` grouping of the target's query part. -/
theorem parse_url_path_and_query_snd (t : PyStr) :
    (SrcWebserver.parse_url_path_and_query t).2
      = (SrcWebserver.parse_qs (SrcWebserver.urlsplitPathQuery t).2).map
          (fun p => (p.1, SrcWebserver.qpConv p.2)) := by
  cases h : SrcWebserver.urlsplitPathQuery t with
  | mk rp q => simp [SrcWebserver.parse_url_path_and_query, h]

/-- C5: in the query-parameter mapping produced by the package framer, a
key with exactly one occurrence maps to its scalar decoded value, a key
with two or more occurrences maps to the ordered list of all its decoded
values, and a field without `=` contributes its key with the empty-string
value (`keep_blank_values=True`); concretely,
`GET /search?q=test&page=1` yields path `/search` and the mapping
`{q: "test", page: "1"}`. -/
theorem claim_query_param_mapping :
    (∀ t k v, SrcWebserver.valuesOfKey k
          (SrcWebserver.parse_qsl (SrcWebserver.urlsplitPathQuery t).2) = [v] →
        pyDictGet (SrcWebserver.parse_url_path_and_query t).2 k
          = some (SrcWebserver.QPVal.scalar v))
    ∧ (∀ t k vs, SrcWebserver.valuesOfKey k
          (SrcWebserver.parse_qsl (SrcWebserver.urlsplitPathQuery t).2) = vs →
        2 ≤ vs.length →
        pyDictGet (SrcWebserver.parse_url_path_and_query t).2 k
          = some (SrcWebserver.QPVal.list vs))
    ∧ (∀ qs tok, tok ∈ pySplitChar 38 qs → tok ≠ [] →
        tok.contains 61 = false →
        (SrcWebserver.qsDecode tok, ([] : PyStr)) ∈ SrcWebserver.parse_qsl qs)
    ∧ SrcWebserver.parse_url_path_and_query (pyS "/search?q=test&page=1")
        = (pyS "/search",
           [(pyS "q", SrcWebserver.QPVal.scalar (pyS "test")),
            (pyS "page", SrcWebserver.QPVal.scalar (pyS "1"))])
    ∧ SrcWebserver.parse_request_from_buffer
        (pyS "GET /search?q=test&page=1 HTTP/1.1\r\n\r\n")
      = .ok (some ⟨pyS "GET", pyS "/search", pyS "HTTP/1.1", [], [], none,
          [(pyS "q", SrcWebserver.QPVal.scalar (pyS "test")),
           (pyS "page", SrcWebserver.QPVal.scalar (pyS "1"))]⟩, 38) := by
  refine ⟨?_, ?_, ?_, by decide, by decide⟩
  · intro t k v h
    have hg : (pyDictGet (SrcWebserver.parse_qs
        (SrcWebserver.urlsplitPathQuery t).2) k).getD [] = [v] := by
      rw [SrcWebserver.parse_qs_getD, h]
    have hsome := SrcWebserver.pyDictGet_of_getD_ne _ k [] (by rw [hg]; simp)
    rw [hg] at hsome
    rw [parse_url_path_and_query_snd, SrcWebserver.pyDictGet_map_value, hsome]
    rfl
  · intro t k vs h hlen
    have hg : (pyDictGet (SrcWebserver.parse_qs
        (SrcWebserver.urlsplitPathQuery t).2) k).getD [] = vs := by
      rw [SrcWebserver.parse_qs_getD, h]
    have hne : vs ≠ [] := by
      intro hv
      rw [hv] at hlen
      simp at hlen
    have hsome := SrcWebserver.pyDictGet_of_getD_ne _ k [] (by rw [hg]; exact hne)
    rw [hg] at hsome
    rw [parse_url_path_and_query_snd, SrcWebserver.pyDictGet_map_value, hsome]
    cases vs with
    | nil => exact absurd rfl hne
    | cons v rest =>
        cases rest with
        | nil => simp at hlen
        | cons w rest2 => rfl
  · intro qs tok hmem hne hnoeq
    have hqs : qs ≠ [] := by
      intro hq
      subst hq
      simp [pySplitChar] at hmem
      exact hne hmem
    rw [SrcWebserver.parse_qsl, if_neg hqs]
    refine List.mem_filterMap.mpr ⟨tok, hmem, ?_⟩
    rw [if_neg hne, SrcWebserver.pySplitFirstChar_eq_self hnoeq]

/-- Witness for C5: scalar for a single key, ordered list for a repeated
key, and empty-string value for a field without `=`. -/
theorem claim_query_param_mapping_witness :
    pyDictGet (SrcWebserver.parse_url_path_and_query (pyS "/s?b=3")).2 (pyS "b")
      = some (SrcWebserver.QPVal.scalar (pyS "3"))
    ∧ pyDictGet (SrcWebserver.parse_url_path_and_query (pyS "/s?a=1&a=2")).2
        (pyS "a") = some (SrcWebserver.QPVal.list [pyS "1", pyS "2"])
    ∧ (SrcWebserver.qsDecode (pyS "c"), ([] : PyStr)) ∈
        SrcWebserver.parse_qsl (pyS "c") :=
  ⟨claim_query_param_mapping.1 (pyS "/s?b=3") (pyS "b") (pyS "3") (by decide),
   claim_query_param_mapping.2.1 (pyS "/s?a=1&a=2") (pyS "a")
     [pyS "1", pyS "2"] (by decide) (by decide),
   claim_query_param_mapping.2.2.1 (pyS "c") (pyS "c") (by decide) (by decide)
     (by decide)⟩

/-- C6 counterexample: the "only if" direction fails — the request
`GET / HTTP/1.0` has exactly three space-separated tokens in its first
line, yet the package framer fails with a framing error (for the
version), so "fails iff not exactly three tokens" is false as stated. -/
theorem claim_request_line_tokens_counterexample :
    (pySplitChar 32 (pyStrip (pyS "GET / HTTP/1.0"))).length = 3
    ∧ SrcWebserver.parse_request_from_buffer (pyS "GET / HTTP/1.0\r\n\r\n")
      = .error (pyS "400 Bad Request: Invalid HTTP version") := by
  constructor <;> decide

/-- C6 (amended): whenever the buffer holds a complete header block whose
bytes decode, a first line that does not split into exactly three
space-separated tokens makes the package framer fail with a framing
error — both fewer and more than three tokens fail (a three-token line
can still fail later checks, e.g. the protocol version). -/
theorem claim_request_line_tokens
    (buffer : List Nat) (h : Nat) (hdrStr : PyStr)
    (hf : bFind Webserver.CRLF2 buffer = some h)
    (hdec : utf8Decode (buffer.take (h + 4)) = some hdrStr)
    (htok : (pySplitChar 32 (pyStrip ((pySplitCRLF hdrStr).headD []))).length ≠ 3) :
    ∃ e, SrcWebserver.parse_request_from_buffer buffer = .error e := by
  unfold SrcWebserver.parse_request_from_buffer
  rw [hf]
  dsimp only
  unfold SrcWebserver.parseHeaderSection
  rw [hdec]
  dsimp only
  cases hlines : pySplitCRLF hdrStr with
  | nil => exact ⟨_, rfl⟩
  | cons first rest =>
      dsimp only
      by_cases hfirst : first = ([] : PyStr)
      · rw [if_pos hfirst]
        exact ⟨_, rfl⟩
      · rw [if_neg hfirst]
        rw [hlines] at htok
        simp only [List.headD_cons] at htok
        rw [if_pos htok]
        exact ⟨_, rfl⟩

/-- Witness for C6: a four-token request line on a complete header block
is rejected. -/
theorem claim_request_line_tokens_witness :
    ∃ e, SrcWebserver.parse_request_from_buffer
        (pyS "GET / HTTP/1.1 extra\r\n\r\n") = .error e :=
  claim_request_line_tokens (pyS "GET / HTTP/1.1 extra\r\n\r\n") 20
    (pyS "GET / HTTP/1.1 extra\r\n\r\n") (by decide) (by decide) (by decide)
